import Mathlib

/-!
Shallow embedding of the PDF-merge pipeline of src/services/historyService.ts
(detectImageType, processImage, mergeFiles).

Modelling choices:
- Byte arrays (Uint8Array contents, File contents) are `List Nat`.
- JS numbers that carry geometry (page points, pixel dimensions, quality) are
  modelled as exact rationals; `Math.round` is `jsRound` (floor of x + 1/2,
  which is what Math.round computes for the non-negative arguments that occur
  here).
- Browser and pdf-lib primitives the code calls (image decoding via the Image
  element, canvas.toBlob, PDFDocument.load / embedPages, embedPng, embedJpg)
  are oracles collected in an `Env` structure; a `none` / `Except.error` result
  models the corresponding JS rejection or throw.  embedPages of already-loaded
  source pages is modelled as returning the intrinsic dimensions of those
  pages (its failure mode is folded into `loadPdf`).
- mergedPdf.save() is modelled as returning the page list of the document; the
  progress callback onProgress is modelled by returning the ordered list of
  emitted (message, percent) events alongside the result.
- A thrown JS Error is an `Except.error` carrying the message string of the
  error.
-/

namespace PdfMerge

/-- Compression policy from src/unnamed/part_000: the union type of the three
string levels `none`, `normal` and `high`. -/
inductive CompressionLevel
  | none
  | normal
  | high
deriving DecidableEq, Repr

/-- Declared file kind from src/unnamed/part_000: `pdf`, `image`, `docx` or
`xlsx`. -/
inductive FileType
  | pdf
  | image
  | docx
  | xlsx
deriving DecidableEq, Repr

/-- Result of detectImageType: `png`, `jpg` or `unknown`. -/
inductive ImgType
  | png
  | jpg
  | unknown
deriving DecidableEq, Repr

/-- Mime type chosen by the canvas path of processImage: image/png or
image/jpeg. -/
inductive Mime
  | png
  | jpeg
deriving DecidableEq, Repr

/-- Codec attempted by a mergedPdf.embedPng / mergedPdf.embedJpg call. -/
inductive Attempt
  | png
  | jpg
deriving DecidableEq, Repr

/-- Model of the UploadedFile record from src/unnamed/part_000, restricted to
the fields mergeFiles reads: the name and bytes of the File, the declared
kind, and the optional pre-converted raster bytes. -/
structure UploadedFile where
  name : String
  fileBytes : List Nat
  type : FileType
  convertedBlob : Option (List Nat)
deriving DecidableEq, Repr

/-- Argument of processImage: either the original File upload or a
pre-converted Uint8Array (fileData.convertedBlob).  The source distinguishes
the two with an instanceof File test. -/
inductive ImageInput
  | original : List Nat → ImageInput
  | converted : List Nat → ImageInput
deriving DecidableEq, Repr

/-- Byte contents of either kind of image input. -/
def ImageInput.bytes : ImageInput → List Nat
  | ImageInput.original b => b
  | ImageInput.converted b => b

/-- Model of the instanceof File test in the source. -/
def ImageInput.isOriginal : ImageInput → Bool
  | ImageInput.original _ => true
  | ImageInput.converted _ => false

/-- One page of the output document: its media-box width and height in points
and the rectangle at which its single piece of content (embedded source page
or image) is drawn. -/
structure Page where
  width : ℚ
  height : ℚ
  drawX : ℚ
  drawY : ℚ
  drawW : ℚ
  drawH : ℚ
deriving DecidableEq, Repr

/-- Result record of processImage: the data bytes plus the isPng flag. -/
structure ProcessedImage where
  data : List Nat
  isPng : Bool
deriving DecidableEq, Repr

/-- Observable outcome of the canvas re-encode path of processImage: the
encoded bytes and codec tag it resolves with, plus the canvas geometry and the
canvas.toBlob mime/quality arguments that produced the bytes (the pixel
dimensions of the encoded image are the canvas dimensions). -/
structure CanvasOutput where
  data : List Nat
  isPng : Bool
  width : ℚ
  height : ℚ
  mime : Mime
  quality : ℚ
deriving DecidableEq, Repr

/-- A (message, percent) pair passed to the onProgress callback. -/
abbrev ProgressEvent := String × ℤ

/-- Browser and pdf-lib primitives consumed by the pipeline, as oracles.
`loadImage` is decoding through a new Image element (`none` models onerror);
`ctxAvailable` models getContext 2d being non-null on the canvas; `toBlob` is
canvas.toBlob at the given canvas width/height with the given mime and quality
(`none` models a null blob); `loadPdf` is PDFDocument.load followed by
getPages / embedPages, yielding the intrinsic width/height in points of each
source page; `embedPng` / `embedJpg` are mergedPdf.embedPng / embedJpg,
yielding the image.scale(1) dimensions of the embedded image. -/
structure Env where
  loadImage : List Nat → Option (ℚ × ℚ)
  ctxAvailable : Bool
  toBlob : ℚ → ℚ → Mime → ℚ → Option (List Nat)
  loadPdf : List Nat → Except String (List (ℚ × ℚ))
  embedPng : List Nat → Except String (ℚ × ℚ)
  embedJpg : List Nat → Except String (ℚ × ℚ)

/-- The constant TARGET_WIDTH = 595.28 (A4 width in points). -/
def TARGET_WIDTH : ℚ := 595.28

/-- Math.round for the non-negative arguments used here. -/
def jsRound (q : ℚ) : ℤ := ⌊q + 1 / 2⌋

/-- Model of detectImageType (historyService.ts lines 48-62): magic-number
sniffing over the first bytes. -/
def detectImageType (bytes : List Nat) : ImgType :=
  if bytes.length < 4 then ImgType.unknown
  else if bytes.getD 0 0 = 0x89 ∧ bytes.getD 1 0 = 0x50 ∧
          bytes.getD 2 0 = 0x4E ∧ bytes.getD 3 0 = 0x47 then ImgType.png
  else if bytes.getD 0 0 = 0xFF ∧ bytes.getD 1 0 = 0xD8 then ImgType.jpg
  else ImgType.unknown

/-- Dimension cap chosen in processImage (lines 96-98): 1500 for `high`, 2500
for `normal`, and 0 (meaning no cap) for `none`. -/
def maxDimensionFor : CompressionLevel → ℚ
  | CompressionLevel.high => 1500
  | CompressionLevel.normal => 2500
  | CompressionLevel.none => 0

/-- Resize step of processImage (lines 100-109): if a positive cap is
exceeded, scale the longer edge down to the cap keeping the width-to-height
proportion. -/
def resizeDims (level : CompressionLevel) (w h : ℚ) : ℚ × ℚ :=
  let maxDimension := maxDimensionFor level
  if 0 < maxDimension ∧ (maxDimension < w ∨ maxDimension < h) then
    let aspect := w / h
    if h < w then (maxDimension, maxDimension / aspect)
    else (maxDimension * aspect, maxDimension)
  else (w, h)

/-- Mime/quality selection of processImage (lines 127-140). -/
def encodeParams : CompressionLevel → Mime × ℚ
  | CompressionLevel.high => (Mime.jpeg, 1 / 2)
  | CompressionLevel.normal => (Mime.jpeg, 3 / 4)
  | CompressionLevel.none => (Mime.png, 1)

/-- Canvas re-encode path of processImage (lines 79-163): decode the image,
resize per the policy cap, re-encode via canvas.toBlob with the mime and
quality of the policy.  (The white-background fill affects pixel values only,
which the byte oracle `toBlob` absorbs.) -/
def processImageCanvas (env : Env) (bytes : List Nat) (level : CompressionLevel) :
    Except String CanvasOutput :=
  match env.loadImage bytes with
  | Option.none => Except.error "Failed to load image for processing."
  | Option.some wh =>
    let dims := resizeDims level wh.1 wh.2
    if env.ctxAvailable = false then
      Except.error "Browser canvas context not available"
    else
      let mq := encodeParams level
      match env.toBlob dims.1 dims.2 mq.1 mq.2 with
      | Option.none => Except.error "Failed to process image"
      | Option.some data =>
        Except.ok { data := data, isPng := decide (mq.1 = Mime.png),
                    width := dims.1, height := dims.2,
                    mime := mq.1, quality := mq.2 }

/-- Model of processImage (lines 67-164).  The fast path (lines 69-77) fires
when the policy is `none`, the input is an original File, and the sniffer
recognizes the bytes; otherwise the canvas path runs.  (The source writes the
fast path as a nested early return and falls through on an unrecognized
signature; the combined guard here is the same function.) -/
def processImage (env : Env) (file : ImageInput) (level : CompressionLevel) :
    Except String ProcessedImage :=
  if level = CompressionLevel.none ∧ file.isOriginal = true ∧
     detectImageType file.bytes ≠ ImgType.unknown then
    Except.ok { data := file.bytes,
                isPng := decide (detectImageType file.bytes = ImgType.png) }
  else
    (processImageCanvas env file.bytes level).map
      (fun c => { data := c.data, isPng := c.isPng })

/-- Page-append geometry shared verbatim by both branches of mergeFiles
(lines 189-200 for embedded PDF pages, lines 233-244 for images): fixed
TARGET_WIDTH, proportional height, content drawn at (0,0) over the whole page
rectangle. -/
def mkScaledPage (w h : ℚ) : Page :=
  let scaleFactor := TARGET_WIDTH / w
  let scaledHeight := h * scaleFactor
  { width := TARGET_WIDTH, height := scaledHeight,
    drawX := 0, drawY := 0, drawW := TARGET_WIDTH, drawH := scaledHeight }

/-- Embed-with-fallback block of mergeFiles (lines 216-231): try the codec
processImage reported; on failure try embedJpg, and if that also fails try
embedPng, whose error (if any) is the one that propagates.  The second
component records the sequence of embed attempts actually made. -/
def embedWithRetry (env : Env) (isPng : Bool) (bytes : List Nat) :
    Except String (ℚ × ℚ) × List Attempt :=
  let firstCodec := if isPng then Attempt.png else Attempt.jpg
  match (if isPng then env.embedPng bytes else env.embedJpg bytes) with
  | Except.ok img => (Except.ok img, [firstCodec])
  | Except.error _ =>
    match env.embedJpg bytes with
    | Except.ok img => (Except.ok img, [firstCodec, Attempt.jpg])
    | Except.error _ =>
      match env.embedPng bytes with
      | Except.ok img => (Except.ok img, [firstCodec, Attempt.jpg, Attempt.png])
      | Except.error e => (Except.error e, [firstCodec, Attempt.jpg, Attempt.png])

/-- Body of the per-file try block of mergeFiles (lines 182-246), producing
the pages the file contributes.  A pdf input contributes one scaled page per
source page; any other kind goes through processImage (on the converted blob
when present, else the original file) and, after the embed fallback,
contributes exactly one scaled page. -/
def processOneFile (env : Env) (level : CompressionLevel) (f : UploadedFile) :
    Except String (List Page) :=
  if f.type = FileType.pdf then
    match env.loadPdf f.fileBytes with
    | Except.error e => Except.error e
    | Except.ok pageDims =>
      Except.ok (pageDims.map (fun wh => mkScaledPage wh.1 wh.2))
  else
    let inputData := match f.convertedBlob with
      | Option.some b => ImageInput.converted b
      | Option.none => ImageInput.original f.fileBytes
    match processImage env inputData level with
    | Except.error e => Except.error e
    | Except.ok pi =>
      match (embedWithRetry env pi.isPng pi.data).1 with
      | Except.error e => Except.error e
      | Except.ok img => Except.ok [mkScaledPage img.1 img.2]

/-- Per-file loop of mergeFiles (lines 175-251): before each file, emit a
progress event with its 1-based index, its name, and
Math.round of ((i+1)/n)*100; on a per-file failure, stop and re-throw the
error wrapped with the file name (line 249); otherwise append the pages of
the file and continue. -/
def mergeLoop (env : Env) (level : CompressionLevel) (total : Nat) :
    Nat → List UploadedFile → List Page →
    List ProgressEvent × Except String (List Page)
  | _, [], acc => ([], Except.ok acc)
  | i, f :: rest, acc =>
    let ev : ProgressEvent :=
      ("正在处理第 " ++ toString (i + 1) ++ " 个文件: " ++ f.name ++ "...",
       jsRound (((i : ℚ) + 1) / (total : ℚ) * 100))
    match processOneFile env level f with
    | Except.error e =>
      ([ev], Except.error ("合并文件 " ++ f.name ++ " 时出错: " ++ e))
    | Except.ok pages =>
      let r := mergeLoop env level total (i + 1) rest (acc ++ pages)
      (ev :: r.1, r.2)

/-- Model of mergeFiles (lines 166-256).  Returns the ordered list of progress
events emitted and either the pages of the final document (success: the loop
finished, the finalize event fired at 100, and save() serialized the document)
or the wrapped error of the file that failed. -/
def mergeFiles (env : Env) (files : List UploadedFile) (level : CompressionLevel) :
    List ProgressEvent × Except String (List Page) :=
  let r := mergeLoop env level files.length 0 files []
  match r.2 with
  | Except.error e => (r.1, Except.error e)
  | Except.ok pages => (r.1 ++ [("正在打包生成最终文件...", 100)], Except.ok pages)

/-- Event sequence the spec prescribes for the per-file loop: for the j-th
remaining name (0-based global index i+j out of `total`), the processing
message containing the name, at percent Math.round of ((i+j+1)/total)*100.
This is the formalization of the event pattern claimed in C9. -/
def perFileEvents (total : Nat) : Nat → List String → List ProgressEvent
  | _, [] => []
  | i, nm :: rest =>
    ("正在处理第 " ++ toString (i + 1) ++ " 个文件: " ++ nm ++ "...",
     jsRound (((i : ℚ) + 1) / (total : ℚ) * 100)) :: perFileEvents total (i + 1) rest

/-- Concrete oracle environment: one single-page 300x300 pt PDF source;
image embedding always fails.  Used by several witnesses. -/
def envA : Env :=
  { loadImage := fun _ => Option.none
    ctxAvailable := true
    toBlob := fun _ _ _ _ => Option.none
    loadPdf := fun _ => Except.ok [((300 : ℚ), (300 : ℚ))]
    embedPng := fun _ => Except.error "no png"
    embedJpg := fun _ => Except.error "no jpg" }

/-- A PDF upload named a.pdf. -/
def fileA : UploadedFile :=
  { name := "a.pdf", fileBytes := [1], type := FileType.pdf, convertedBlob := Option.none }

/-- A second PDF upload named c.pdf. -/
def fileA2 : UploadedFile :=
  { name := "c.pdf", fileBytes := [3], type := FileType.pdf, convertedBlob := Option.none }

/-- Concrete oracle environment whose PDF loader reports an empty page list
(a zero-page source document). -/
def envPdfEmpty : Env :=
  { loadImage := fun _ => Option.none
    ctxAvailable := true
    toBlob := fun _ _ _ _ => Option.none
    loadPdf := fun _ => Except.ok []
    embedPng := fun _ => Except.error "no png"
    embedJpg := fun _ => Except.error "no jpg" }

/-- A PDF upload named empty.pdf whose source pages come out empty. -/
def filePdfEmpty : UploadedFile :=
  { name := "empty.pdf", fileBytes := [2], type := FileType.pdf, convertedBlob := Option.none }

/-- Concrete oracle environment in which both embed primitives fail. -/
def envEmbedFail : Env :=
  { loadImage := fun _ => Option.none
    ctxAvailable := true
    toBlob := fun _ _ _ _ => Option.none
    loadPdf := fun _ => Except.error "no pdf"
    embedPng := fun _ => Except.error "png broken"
    embedJpg := fun _ => Except.error "jpg broken" }

/-- An image upload named b.png whose bytes carry the PNG signature. -/
def fileBadPng : UploadedFile :=
  { name := "b.png", fileBytes := [0x89, 0x50, 0x4E, 0x47, 0], type := FileType.image,
    convertedBlob := Option.none }

/-- Concrete oracle environment: decodes every image as 4000x2000 px and
encodes every canvas to the byte [7]. -/
def env6 : Env :=
  { loadImage := fun _ => Option.some ((4000 : ℚ), (2000 : ℚ))
    ctxAvailable := true
    toBlob := fun _ _ _ _ => Option.some [7]
    loadPdf := fun _ => Except.error "no pdf"
    embedPng := fun _ => Except.error "no png"
    embedJpg := fun _ => Except.error "no jpg" }

/-- Expected canvas outcome for env6 under the high policy: 1500x750 JPEG at
quality one half. -/
def canvasOut6 : CanvasOutput :=
  { data := [7], isPng := false, width := 1500, height := 750,
    mime := Mime.jpeg, quality := 1 / 2 }

/-- Concrete oracle environment in which embedJpg always fails and embedPng
always succeeds (with a 10x10 image). -/
def env7 : Env :=
  { loadImage := fun _ => Option.none
    ctxAvailable := true
    toBlob := fun _ _ _ _ => Option.none
    loadPdf := fun _ => Except.error "no pdf"
    embedPng := fun _ => Except.ok ((10 : ℚ), (10 : ℚ))
    embedJpg := fun _ => Except.error "jpg fail" }

/-- Every page list produced by processOneFile consists of pages built by
mkScaledPage. -/
theorem processOneFile_mem {env : Env} {level : CompressionLevel} {f : UploadedFile}
    {ps : List Page} (hok : processOneFile env level f = Except.ok ps)
    {p : Page} (hp : p ∈ ps) : ∃ w h, p = mkScaledPage w h := by
  rw [processOneFile] at hok
  split at hok
  · split at hok
    · exact absurd hok (by simp)
    · rename_i dims heq
      cases hok
      rcases List.mem_map.mp hp with ⟨wh, _, rfl⟩
      exact ⟨wh.1, wh.2, rfl⟩
  · split at hok
    all_goals
      simp only [] at hok
      split at hok
      · exact absurd hok (by simp)
      · split at hok
        · exact absurd hok (by simp)
        · rename_i img heq
          cases hok
          rcases List.mem_singleton.mp hp with rfl
          exact ⟨img.1, img.2, rfl⟩

/-- Every page of a successful mergeLoop run is either from the accumulator or
built by mkScaledPage. -/
theorem mergeLoop_mem {env : Env} {level : CompressionLevel} {total : Nat} :
    ∀ {fs : List UploadedFile} {i : Nat} {acc : List Page} {evs : List ProgressEvent}
      {pages : List Page},
      mergeLoop env level total i fs acc = (evs, Except.ok pages) →
      ∀ {p : Page}, p ∈ pages → p ∈ acc ∨ ∃ w h, p = mkScaledPage w h := by
  intro fs
  induction fs with
  | nil =>
    intro i acc evs pages h p hp
    rw [mergeLoop] at h
    cases h
    exact Or.inl hp
  | cons f rest ih =>
    intro i acc evs pages h p hp
    rw [mergeLoop] at h
    split at h
    · exact absurd (congrArg Prod.snd h) (by simp)
    · rename_i ps hps
      have h2 : (mergeLoop env level total (i + 1) rest (acc ++ ps)).2 = Except.ok pages := by
        have := congrArg Prod.snd h
        simpa using this
      have hfull : mergeLoop env level total (i + 1) rest (acc ++ ps) =
          ((mergeLoop env level total (i + 1) rest (acc ++ ps)).1, Except.ok pages) :=
        Prod.ext_iff.mpr ⟨rfl, h2⟩
      rcases ih hfull hp with hacc | hmk
      · rcases List.mem_append.mp hacc with h1 | h1
        · exact Or.inl h1
        · exact Or.inr (processOneFile_mem hps h1)
      · exact Or.inr hmk

/-- A successful mergeFiles run exposes a successful mergeLoop run with the
same pages. -/
theorem mergeFiles_ok_loop {env : Env} {files : List UploadedFile}
    {level : CompressionLevel} {evs : List ProgressEvent} {pages : List Page}
    (h : mergeFiles env files level = (evs, Except.ok pages)) :
    mergeLoop env level files.length 0 files [] =
      ((mergeLoop env level files.length 0 files []).1, Except.ok pages) := by
  rw [mergeFiles] at h
  split at h
  · exact absurd (congrArg Prod.snd h) (by simp)
  · rename_i ps hps
    have hpp : ps = pages := by
      have := congrArg Prod.snd h
      simpa using this
    subst hpp
    exact Prod.ext_iff.mpr ⟨rfl, hps⟩

/-- C1: every page appended to the output document by a successful merge has
width exactly TARGET_WIDTH = 595.28 points, its content drawn at origin (0,0)
filling the full page rectangle, and its height equal to the intrinsic height
times (595.28 / intrinsic width), so that for a nonzero intrinsic width the
height-to-width proportion of the output page equals the intrinsic one. -/
theorem C1_page_geometry {env : Env} {files : List UploadedFile}
    {level : CompressionLevel} {evs : List ProgressEvent} {pages : List Page}
    (hmerge : mergeFiles env files level = (evs, Except.ok pages))
    {p : Page} (hp : p ∈ pages) :
    p.width = TARGET_WIDTH ∧ p.drawX = 0 ∧ p.drawY = 0 ∧
    p.drawW = p.width ∧ p.drawH = p.height ∧
    ∃ iw ih, p = mkScaledPage iw ih ∧ p.height = ih * (TARGET_WIDTH / iw) ∧
      (iw ≠ 0 → p.height / p.width = ih / iw) := by
  have hloop := mergeFiles_ok_loop hmerge
  rcases mergeLoop_mem hloop hp with hacc | ⟨iw, ih, rfl⟩
  · exact absurd hacc (List.not_mem_nil p)
  · refine ⟨rfl, rfl, rfl, rfl, rfl, iw, ih, rfl, rfl, ?_⟩
    intro hiw
    show ih * (TARGET_WIDTH / iw) / TARGET_WIDTH = ih / iw
    have hT : TARGET_WIDTH ≠ 0 := by norm_num [TARGET_WIDTH]
    field_simp
    ring

/-- Concrete merge of the single PDF file a.pdf in the environment envA. -/
theorem envA_merge : mergeFiles envA [fileA] CompressionLevel.none =
    ([("正在处理第 1 个文件: a.pdf...", 100), ("正在打包生成最终文件...", 100)],
     Except.ok [mkScaledPage 300 300]) := by
  simp [mergeFiles, mergeLoop, processOneFile, envA, fileA, jsRound]
  norm_num
  rfl

/-- Witness for C1 at the concrete single-PDF merge of envA_merge. -/
theorem C1_page_geometry_witness :
    (mkScaledPage 300 300).width = TARGET_WIDTH ∧
    (mkScaledPage 300 300).drawX = 0 ∧ (mkScaledPage 300 300).drawY = 0 ∧
    (mkScaledPage 300 300).drawW = (mkScaledPage 300 300).width ∧
    (mkScaledPage 300 300).drawH = (mkScaledPage 300 300).height ∧
    ∃ iw ih, mkScaledPage 300 300 = mkScaledPage iw ih ∧
      (mkScaledPage 300 300).height = ih * (TARGET_WIDTH / iw) ∧
      (iw ≠ 0 → (mkScaledPage 300 300).height / (mkScaledPage 300 300).width = ih / iw) :=
  @C1_page_geometry envA [fileA] CompressionLevel.none
    [("正在处理第 1 个文件: a.pdf...", 100), ("正在打包生成最终文件...", 100)]
    [mkScaledPage 300 300] envA_merge (mkScaledPage 300 300) (by simp)

/-- A successful mergeLoop run appends, after the accumulator, exactly the
concatenation of the per-file page lists, in file order. -/
theorem mergeLoop_join {env : Env} {level : CompressionLevel} {total : Nat} :
    ∀ {fs : List UploadedFile} {i : Nat} {acc : List Page} {evs : List ProgressEvent}
      {pages : List Page},
      mergeLoop env level total i fs acc = (evs, Except.ok pages) →
      ∃ contrib : List (List Page),
        contrib.length = fs.length ∧
        pages = acc ++ contrib.flatten ∧
        ∀ j (hj : j < fs.length) (hc : j < contrib.length),
          processOneFile env level (fs.get ⟨j, hj⟩) = Except.ok (contrib.get ⟨j, hc⟩) := by
  intro fs
  induction fs with
  | nil =>
    intro i acc evs pages h
    rw [mergeLoop] at h
    cases h
    exact ⟨[], rfl, by simp, fun j hj _ => absurd hj (Nat.not_lt_zero j)⟩
  | cons f rest ih =>
    intro i acc evs pages h
    rw [mergeLoop] at h
    split at h
    · exact absurd (congrArg Prod.snd h) (by simp)
    · rename_i ps hps
      have h2 : (mergeLoop env level total (i + 1) rest (acc ++ ps)).2 = Except.ok pages := by
        have := congrArg Prod.snd h
        simpa using this
      have hfull : mergeLoop env level total (i + 1) rest (acc ++ ps) =
          ((mergeLoop env level total (i + 1) rest (acc ++ ps)).1, Except.ok pages) :=
        Prod.ext_iff.mpr ⟨rfl, h2⟩
      rcases ih hfull with ⟨contrib, hlen, hpages, hidx⟩
      refine ⟨ps :: contrib, by simp [hlen], by simp [hpages], ?_⟩
      intro j hj hc
      cases j with
      | zero => exact hps
      | succ j =>
        exact hidx j (Nat.lt_of_succ_lt_succ hj) (Nat.lt_of_succ_lt_succ hc)

/-- C2: a successful merge of n inputs yields an output whose page list is the
concatenation, in the caller-supplied input order, of the page lists the
individual inputs produce, so the page count is the sum of the per-input page
counts and all pages of input i precede all pages of input i+1. -/
theorem C2_order_and_count {env : Env} {files : List UploadedFile}
    {level : CompressionLevel} {evs : List ProgressEvent} {pages : List Page}
    (hmerge : mergeFiles env files level = (evs, Except.ok pages)) :
    ∃ contrib : List (List Page),
      contrib.length = files.length ∧
      pages = contrib.flatten ∧
      pages.length = (contrib.map List.length).sum ∧
      ∀ j (hj : j < files.length) (hc : j < contrib.length),
        processOneFile env level (files.get ⟨j, hj⟩) = Except.ok (contrib.get ⟨j, hc⟩) := by
  have hloop := mergeFiles_ok_loop hmerge
  rcases mergeLoop_join hloop with ⟨contrib, hlen, hpages, hidx⟩
  simp only [List.nil_append] at hpages
  exact ⟨contrib, hlen, hpages, by rw [hpages, List.length_flatten], hidx⟩

/-- Witness for C2 at the concrete single-PDF merge of envA_merge. -/
theorem C2_order_and_count_witness :
    ∃ contrib : List (List Page),
      contrib.length = ([fileA] : List UploadedFile).length ∧
      [mkScaledPage 300 300] = contrib.flatten ∧
      ([mkScaledPage 300 300] : List Page).length = (contrib.map List.length).sum ∧
      ∀ j (hj : j < ([fileA] : List UploadedFile).length) (hc : j < contrib.length),
        processOneFile envA CompressionLevel.none (([fileA] : List UploadedFile).get ⟨j, hj⟩) =
          Except.ok (contrib.get ⟨j, hc⟩) :=
  @C2_order_and_count envA [fileA] CompressionLevel.none
    [("正在处理第 1 个文件: a.pdf...", 100), ("正在打包生成最终文件...", 100)]
    [mkScaledPage 300 300] envA_merge

/-- C3, counterexample: a PDF input whose source page list is empty is
silently skipped, not an error.  The merge of the single input empty.pdf
succeeds with an output of zero pages, contradicting the claim that an input
yielding zero pages is an error and never a silent skip. -/
theorem C3_zero_page_counterexample :
    mergeFiles envPdfEmpty [filePdfEmpty] CompressionLevel.none =
      ([("正在处理第 1 个文件: empty.pdf...", 100), ("正在打包生成最终文件...", 100)],
       Except.ok []) := by
  simp [mergeFiles, mergeLoop, processOneFile, envPdfEmpty, filePdfEmpty, jsRound]
  norm_num
  rfl

/-- C3, amended: a non-PDF input that succeeds contributes exactly one page,
while a PDF input contributes exactly one page per source page - which may be
zero pages when the source page list is empty, in which case the input is
silently skipped rather than rejected. -/
theorem C3_amended_page_counts {env : Env} {level : CompressionLevel} {f : UploadedFile}
    {ps : List Page} (hok : processOneFile env level f = Except.ok ps) :
    (f.type ≠ FileType.pdf → ps.length = 1) ∧
    (∀ dims, f.type = FileType.pdf → env.loadPdf f.fileBytes = Except.ok dims →
      ps.length = dims.length) := by
  rw [processOneFile] at hok
  split at hok
  · rename_i hpdf
    refine ⟨fun hne => absurd hpdf hne, ?_⟩
    intro dims _ hload
    split at hok
    · exact absurd hok (by simp)
    · rename_i dims2 heq
      cases hok
      rw [hload] at heq
      obtain rfl : dims = dims2 := by injection heq
      simp
  · rename_i hpdf
    refine ⟨fun _ => ?_, fun dims hpdf2 _ => absurd hpdf2 hpdf⟩
    split at hok
    all_goals
      simp only [] at hok
      split at hok
      · exact absurd hok (by simp)
      · split at hok
        · exact absurd hok (by simp)
        · cases hok; rfl

/-- Witness for the amended C3 at the concrete PDF input fileA under envA. -/
theorem C3_amended_page_counts_witness :
    ((fileA.type ≠ FileType.pdf → ([mkScaledPage 300 300] : List Page).length = 1) ∧
     (∀ dims, fileA.type = FileType.pdf → envA.loadPdf fileA.fileBytes = Except.ok dims →
       ([mkScaledPage 300 300] : List Page).length = dims.length)) :=
  @C3_amended_page_counts envA CompressionLevel.none fileA [mkScaledPage 300 300]
    (by simp [processOneFile, envA, fileA])

/-- The result component of mergeFiles is the result component of its loop. -/
theorem mergeFiles_snd (env : Env) (files : List UploadedFile) (level : CompressionLevel) :
    (mergeFiles env files level).2 = (mergeLoop env level files.length 0 files []).2 := by
  simp only [mergeFiles]
  split
  · rename_i e he
    rw [he]
  · rename_i ps hps
    rw [hps]

/-- If the k-th file fails while all earlier files succeed, the loop result is
the error of the k-th file wrapped with its name. -/
theorem mergeLoop_err {env : Env} {level : CompressionLevel} {total : Nat} :
    ∀ {fs : List UploadedFile} {k i : Nat} {acc : List Page} (hk : k < fs.length) {e : String},
      processOneFile env level (fs.get ⟨k, hk⟩) = Except.error e →
      (∀ j (hj : j < k), ∃ ps,
        processOneFile env level (fs.get ⟨j, Nat.lt_trans hj hk⟩) = Except.ok ps) →
      (mergeLoop env level total i fs acc).2 =
        Except.error ("合并文件 " ++ (fs.get ⟨k, hk⟩).name ++ " 时出错: " ++ e) := by
  intro fs
  induction fs with
  | nil =>
    intro k i acc hk
    exact absurd hk (Nat.not_lt_zero k)
  | cons f rest ih =>
    intro k i acc hk e hfail hprev
    cases k with
    | zero =>
      have hfail2 : processOneFile env level f = Except.error e := hfail
      simp [mergeLoop, hfail2]
    | succ k =>
      rcases hprev 0 (Nat.succ_pos k) with ⟨ps, hps⟩
      have hps2 : processOneFile env level f = Except.ok ps := hps
      have hk2 : k < rest.length := Nat.lt_of_succ_lt_succ hk
      have hfail2 : processOneFile env level (rest.get ⟨k, hk2⟩) = Except.error e := hfail
      have hprev2 : ∀ j (hj : j < k), ∃ qs,
          processOneFile env level (rest.get ⟨j, Nat.lt_trans hj hk2⟩) = Except.ok qs :=
        fun j hj => hprev (j + 1) (Nat.succ_lt_succ hj)
      simp [mergeLoop, hps2]
      exact ih hk2 hfail2 hprev2

/-- C4: if the k-th input fails (its per-file processing returns an error e,
covering decode, embed-after-retry and source-open failures) while every
earlier input succeeded, the merge returns no output pages at all - its result
is exactly the error naming the display name of that input together with the
underlying cause, so no pages of already-processed inputs appear in any
output. -/
theorem C4_fatal_abort {env : Env} {files : List UploadedFile} {level : CompressionLevel}
    {k : Nat} (hk : k < files.length) {e : String}
    (hfail : processOneFile env level (files.get ⟨k, hk⟩) = Except.error e)
    (hprev : ∀ j (hj : j < k), ∃ ps,
      processOneFile env level (files.get ⟨j, Nat.lt_trans hj hk⟩) = Except.ok ps) :
    (mergeFiles env files level).2 =
      Except.error ("合并文件 " ++ (files.get ⟨k, hk⟩).name ++ " 时出错: " ++ e) := by
  rw [mergeFiles_snd]
  exact mergeLoop_err hk hfail hprev

/-- Witness for C4: the image b.png fails to embed under envEmbedFail and the
merge aborts with the wrapped error. -/
theorem C4_fatal_abort_witness :
    (mergeFiles envEmbedFail [fileBadPng] CompressionLevel.none).2 =
      Except.error ("合并文件 " ++ (([fileBadPng] : List UploadedFile).get ⟨0, by simp⟩).name ++
        " 时出错: " ++ "png broken") :=
  @C4_fatal_abort envEmbedFail [fileBadPng] CompressionLevel.none 0 (by simp) "png broken"
    (by simp [processOneFile, processImage, detectImageType, embedWithRetry,
          envEmbedFail, fileBadPng, ImageInput.bytes, ImageInput.isOriginal])
    (fun j hj => absurd hj (Nat.not_lt_zero j))

/-- C5: for every environment (so no browser decode or re-encode oracle is
consulted), an original upload whose bytes the sniffer classifies as PNG or
JPEG is returned byte-identical under policy none, tagged with the sniffed
codec. -/
theorem C5_fast_path (env : Env) (bytes : List Nat)
    (h : detectImageType bytes ≠ ImgType.unknown) :
    processImage env (ImageInput.original bytes) CompressionLevel.none =
      Except.ok { data := bytes,
                  isPng := decide (detectImageType bytes = ImgType.png) } := by
  simp [processImage, ImageInput.isOriginal, ImageInput.bytes, h]

/-- Witness for C5 at a PNG-signature byte string under envA. -/
theorem C5_fast_path_witness :
    processImage envA (ImageInput.original [0x89, 0x50, 0x4E, 0x47]) CompressionLevel.none =
      Except.ok { data := [0x89, 0x50, 0x4E, 0x47], isPng := true } := by
  have h := C5_fast_path envA [0x89, 0x50, 0x4E, 0x47] (by decide)
  simpa using h

/-- Dimensions already within the positive cap are left untouched. -/
theorem resizeDims_within {level : CompressionLevel} {w h : ℚ}
    (hw : w ≤ maxDimensionFor level) (hh : h ≤ maxDimensionFor level) :
    resizeDims level w h = (w, h) := by
  rw [resizeDims]
  rw [if_neg]
  rintro ⟨-, hcase⟩
  rcases hcase with hc | hc
  · exact absurd hw (not_le.mpr hc)
  · exact absurd hh (not_le.mpr hc)

/-- With a zero cap (policy none) the resize step never fires. -/
theorem resizeDims_zero_cap (level : CompressionLevel) (hM : maxDimensionFor level = 0)
    (w h : ℚ) : resizeDims level w h = (w, h) := by
  rw [resizeDims]
  rw [if_neg]
  rintro ⟨h0, -⟩
  rw [hM] at h0
  exact absurd h0 (lt_irrefl 0)

/-- The resize step preserves the width-to-height proportion. -/
theorem resizeDims_aspect (level : CompressionLevel) {w h : ℚ} (hw : 0 < w) (hh : 0 < h) :
    (resizeDims level w h).1 / (resizeDims level w h).2 = w / h := by
  rw [resizeDims]
  split
  · rename_i hcond
    have hM : maxDimensionFor level ≠ 0 := ne_of_gt hcond.1
    split
    · show maxDimensionFor level / (maxDimensionFor level / (w / h)) = w / h
      rw [div_div_eq_mul_div, mul_comm, mul_div_assoc, div_self hM, mul_one]
    · show maxDimensionFor level * (w / h) / maxDimensionFor level = w / h
      rw [mul_comm, mul_div_assoc, div_self hM, mul_one]
  · rfl

/-- Under a positive cap, neither resized dimension exceeds the cap. -/
theorem resizeDims_cap {level : CompressionLevel} {w h : ℚ} (hw : 0 < w) (hh : 0 < h)
    (hM : 0 < maxDimensionFor level) :
    max (resizeDims level w h).1 (resizeDims level w h).2 ≤ maxDimensionFor level := by
  rw [resizeDims]
  split
  · rename_i hcond
    split
    · rename_i hwh
      show max (maxDimensionFor level) (maxDimensionFor level / (w / h)) ≤ maxDimensionFor level
      have hq : (1 : ℚ) < w / h := (one_lt_div hh).mpr hwh
      have hle : maxDimensionFor level / (w / h) ≤ maxDimensionFor level := by
        rw [div_le_iff (lt_trans zero_lt_one hq)]
        exact le_mul_of_one_le_right hM.le hq.le
      exact max_le le_rfl hle
    · rename_i hwh
      show max (maxDimensionFor level * (w / h)) (maxDimensionFor level) ≤ maxDimensionFor level
      have hq : w / h ≤ 1 := (div_le_one hh).mpr (not_lt.mp hwh)
      have hle : maxDimensionFor level * (w / h) ≤ maxDimensionFor level :=
        mul_le_of_le_one_right hM.le hq
      exact max_le hle le_rfl
  · rename_i hcond
    push_neg at hcond
    rcases hcond hM with ⟨hw2, hh2⟩
    exact max_le hw2 hh2

/-- C6: on the canvas path, an image decoded at positive dimensions w x h is
re-encoded so that under policy high its longer edge is at most 1500 px as a
JPEG of quality one half, under normal at most 2500 px as a JPEG of quality
three quarters, and under none its dimensions are unchanged and the result is
a PNG; the width-to-height proportion is always preserved, and dimensions
already within the cap are left untouched. -/
theorem C6_normalize {env : Env} {bytes : List Nat} {level : CompressionLevel}
    {w h : ℚ} {out : CanvasOutput} (hw : 0 < w) (hh : 0 < h)
    (hload : env.loadImage bytes = Option.some (w, h))
    (hres : processImageCanvas env bytes level = Except.ok out) :
    (level = CompressionLevel.high →
      max out.width out.height ≤ 1500 ∧ out.mime = Mime.jpeg ∧
      out.quality = 1 / 2 ∧ out.isPng = false) ∧
    (level = CompressionLevel.normal →
      max out.width out.height ≤ 2500 ∧ out.mime = Mime.jpeg ∧
      out.quality = 3 / 4 ∧ out.isPng = false) ∧
    (level = CompressionLevel.none →
      out.width = w ∧ out.height = h ∧ out.mime = Mime.png ∧ out.isPng = true) ∧
    out.width / out.height = w / h ∧
    (w ≤ maxDimensionFor level → h ≤ maxDimensionFor level →
      out.width = w ∧ out.height = h) := by
  rw [processImageCanvas, hload] at hres
  split at hres
  · exact absurd hres (by simp)
  · rename_i wh hwh
    injection hwh with hwh
    subst hwh
    split at hres
    · exact absurd hres (by simp)
    · simp only [] at hres
      split at hres
      · exact absurd hres (by simp)
      · rename_i data hdata
        injection hres with hres
        subst hres
        refine ⟨?_, ?_, ?_, ?_, ?_⟩
        · rintro rfl
          exact ⟨resizeDims_cap hw hh (by norm_num [maxDimensionFor]), rfl, rfl, rfl⟩
        · rintro rfl
          exact ⟨resizeDims_cap hw hh (by norm_num [maxDimensionFor]), rfl, rfl, rfl⟩
        · rintro rfl
          refine ⟨?_, ?_, rfl, rfl⟩
          · show (resizeDims CompressionLevel.none w h).1 = w
            rw [resizeDims_zero_cap CompressionLevel.none rfl]
          · show (resizeDims CompressionLevel.none w h).2 = h
            rw [resizeDims_zero_cap CompressionLevel.none rfl]
        · exact resizeDims_aspect level hw hh
        · intro h1 h2
          constructor
          · show (resizeDims level w h).1 = w
            rw [resizeDims_within h1 h2]
          · show (resizeDims level w h).2 = h
            rw [resizeDims_within h1 h2]

/-- Concrete canvas run for the C6 witness: a 4000x2000 image under policy
high comes out as the 1500x750 JPEG record canvasOut6. -/
theorem env6_canvas : processImageCanvas env6 [9] CompressionLevel.high =
    Except.ok canvasOut6 := by
  simp [processImageCanvas, env6, resizeDims, maxDimensionFor, encodeParams, canvasOut6]
  norm_num

/-- Witness for C6 at the concrete 4000x2000 high-policy run of env6_canvas. -/
theorem C6_normalize_witness :
    (CompressionLevel.high = CompressionLevel.high →
      max canvasOut6.width canvasOut6.height ≤ 1500 ∧ canvasOut6.mime = Mime.jpeg ∧
      canvasOut6.quality = 1 / 2 ∧ canvasOut6.isPng = false) ∧
    (CompressionLevel.high = CompressionLevel.normal →
      max canvasOut6.width canvasOut6.height ≤ 2500 ∧ canvasOut6.mime = Mime.jpeg ∧
      canvasOut6.quality = 3 / 4 ∧ canvasOut6.isPng = false) ∧
    (CompressionLevel.high = CompressionLevel.none →
      canvasOut6.width = 4000 ∧ canvasOut6.height = 2000 ∧
      canvasOut6.mime = Mime.png ∧ canvasOut6.isPng = true) ∧
    canvasOut6.width / canvasOut6.height = (4000 : ℚ) / 2000 ∧
    ((4000 : ℚ) ≤ maxDimensionFor CompressionLevel.high →
      (2000 : ℚ) ≤ maxDimensionFor CompressionLevel.high →
      canvasOut6.width = 4000 ∧ canvasOut6.height = 2000) :=
  @C6_normalize env6 [9] CompressionLevel.high 4000 2000 canvasOut6
    (by norm_num) (by norm_num) rfl env6_canvas

/-- C7, counterexample: the claim says that on an embed failure exactly one
retry with the opposite codec is attempted.  In env7 a JPEG-classified image
whose embedJpg call fails is retried as JPEG again and only then as PNG: the
attempt sequence is [jpg, jpg, png], which is neither the no-retry sequence
[jpg] nor the claimed single-opposite-retry sequence [jpg, png]. -/
theorem C7_opposite_retry_counterexample :
    (embedWithRetry env7 false [0]).2 = [Attempt.jpg, Attempt.jpg, Attempt.png] ∧
    ¬((embedWithRetry env7 false [0]).2 = [Attempt.jpg] ∨
      (embedWithRetry env7 false [0]).2 = [Attempt.jpg, Attempt.png]) := by
  have heq : (embedWithRetry env7 false [0]).2 = [Attempt.jpg, Attempt.jpg, Attempt.png] := by
    simp [embedWithRetry, env7]
  refine ⟨heq, ?_⟩
  rw [heq]
  simp

/-- C7, amended: when the embed under the reported codec fails, the code
falls back by attempting embedJpg and then, if that also fails, embedPng -
in that fixed order regardless of the reported codec - and the hard error
raised when the final embedPng attempt fails is the error of that attempt.
So a PNG-classified input is retried as JPEG and then as PNG a second time,
and a JPEG-classified input is retried as JPEG again before the PNG
fallback. -/
theorem C7_amended_fixed_fallback {env : Env} {isPng : Bool} {bytes : List Nat} {e : String}
    (hfirst : (if isPng then env.embedPng bytes else env.embedJpg bytes) = Except.error e) :
    (∀ img, env.embedJpg bytes = Except.ok img →
      embedWithRetry env isPng bytes =
        (Except.ok img, [(if isPng then Attempt.png else Attempt.jpg), Attempt.jpg])) ∧
    (∀ e2 img, env.embedJpg bytes = Except.error e2 → env.embedPng bytes = Except.ok img →
      embedWithRetry env isPng bytes =
        (Except.ok img, [(if isPng then Attempt.png else Attempt.jpg), Attempt.jpg,
          Attempt.png])) ∧
    (∀ e2 e3, env.embedJpg bytes = Except.error e2 → env.embedPng bytes = Except.error e3 →
      embedWithRetry env isPng bytes =
        (Except.error e3, [(if isPng then Attempt.png else Attempt.jpg), Attempt.jpg,
          Attempt.png])) := by
  cases isPng with
  | false =>
    have hfirst2 : env.embedJpg bytes = Except.error e := by simpa using hfirst
    refine ⟨?_, ?_, ?_⟩
    · intro img hjpg
      rw [hjpg] at hfirst2
      exact absurd hfirst2 (by simp)
    · intro e2 img hjpg hpng
      simp [embedWithRetry, hfirst2, hpng]
    · intro e2 e3 hjpg hpng
      simp [embedWithRetry, hfirst2, hjpg, hpng]
  | true =>
    have hfirst2 : env.embedPng bytes = Except.error e := by simpa using hfirst
    refine ⟨?_, ?_, ?_⟩
    · intro img hjpg
      simp [embedWithRetry, hfirst2, hjpg]
    · intro e2 img hjpg hpng
      rw [hpng] at hfirst2
      exact absurd hfirst2 (by simp)
    · intro e2 e3 hjpg hpng
      rw [hpng] at hfirst2
      injection hfirst2 with he
      subst he
      simp [embedWithRetry, hjpg, hpng]

/-- Witness for the amended C7 at env7: a JPEG-classified input whose
embedJpg fails twice and whose embedPng succeeds ends with the attempt
sequence [jpg, jpg, png]. -/
theorem C7_amended_fixed_fallback_witness :
    embedWithRetry env7 false [0] =
      (Except.ok ((10 : ℚ), (10 : ℚ)), [Attempt.jpg, Attempt.jpg, Attempt.png]) := by
  have h := (@C7_amended_fixed_fallback env7 false [0] "jpg fail" rfl).2.1
  have h2 := h "jpg fail" ((10 : ℚ), (10 : ℚ)) rfl rfl
  simpa using h2

/-- C8, counterexample: the two-byte string FF D8 has the JPEG SOI prefix as
its first two bytes, yet detectImageType classifies it as unknown (the
length-below-4 guard fires first), so the claimed iff between a jpeg result
and the two-byte prefix fails at this input. -/
theorem C8_short_jpeg_counterexample :
    ([0xFF, 0xD8] : List Nat).take 2 = [0xFF, 0xD8] ∧
    detectImageType [0xFF, 0xD8] ≠ ImgType.jpg ∧
    detectImageType [0xFF, 0xD8] = ImgType.unknown := by
  refine ⟨rfl, ?_, rfl⟩
  decide

/-- C8, amended: classify returns png iff the first four bytes are the PNG
signature, returns jpg iff the input has at least four bytes and its first
two bytes are FF D8 (the length guard is part of the jpeg condition), returns
unknown for every input shorter than four bytes, and returns unknown whenever
neither prefix matches; as a total Lean function it is pure and never
throws. -/
theorem C8_amended_classify (bytes : List Nat) :
    (detectImageType bytes = ImgType.png ↔ bytes.take 4 = [0x89, 0x50, 0x4E, 0x47]) ∧
    (detectImageType bytes = ImgType.jpg ↔
      4 ≤ bytes.length ∧ bytes.take 2 = [0xFF, 0xD8]) ∧
    (bytes.length < 4 → detectImageType bytes = ImgType.unknown) ∧
    (bytes.take 4 ≠ [0x89, 0x50, 0x4E, 0x47] → bytes.take 2 ≠ [0xFF, 0xD8] →
      detectImageType bytes = ImgType.unknown) := by
  rcases bytes with _ | ⟨a, _ | ⟨b, _ | ⟨c, _ | ⟨d, rest⟩⟩⟩⟩
  · decide
  · simp [detectImageType]
  · simp [detectImageType]
  · simp [detectImageType]
  · have hlen : ¬ (rest.length + 1 + 1 + 1 + 1 < 4) := by omega
    have hlen2 : 4 ≤ rest.length + 1 + 1 + 1 + 1 := by omega
    by_cases hP : a = 0x89 ∧ b = 0x50 ∧ c = 0x4E ∧ d = 0x47
    · obtain ⟨rfl, rfl, rfl, rfl⟩ := hP
      simp [detectImageType, hlen]
    · by_cases hQ : a = 0xFF ∧ b = 0xD8
      · obtain ⟨rfl, rfl⟩ := hQ
        simp [detectImageType, hP, hlen, hlen2]
      · simp [detectImageType, hP, hQ, hlen]

/-- Witness for the amended C8: a four-byte input starting FF D8 classifies as
jpeg via the amended iff. -/
theorem C8_amended_classify_witness :
    detectImageType [0xFF, 0xD8, 0, 0] = ImgType.jpg :=
  (C8_amended_classify [0xFF, 0xD8, 0, 0]).2.1.mpr (by decide)

/-- When every file succeeds, the loop emits exactly the per-file event
sequence prescribed by perFileEvents. -/
theorem mergeLoop_events {env : Env} {level : CompressionLevel} {total : Nat} :
    ∀ {fs : List UploadedFile} {i : Nat} {acc : List Page},
      (∀ j (hj : j < fs.length), ∃ ps,
        processOneFile env level (fs.get ⟨j, hj⟩) = Except.ok ps) →
      ∃ pages, mergeLoop env level total i fs acc =
        (perFileEvents total i (fs.map (fun f => f.name)), Except.ok pages) := by
  intro fs
  induction fs with
  | nil =>
    intro i acc _
    exact ⟨acc, by simp [mergeLoop, perFileEvents]⟩
  | cons f rest ih =>
    intro i acc hok
    rcases hok 0 (Nat.succ_pos _) with ⟨ps, hps⟩
    have hps2 : processOneFile env level f = Except.ok ps := hps
    have hok2 : ∀ j (hj : j < rest.length), ∃ qs,
        processOneFile env level (rest.get ⟨j, hj⟩) = Except.ok qs :=
      fun j hj => hok (j + 1) (Nat.succ_lt_succ hj)
    rcases @ih (i + 1) (acc ++ ps) hok2 with ⟨pages, hrec⟩
    refine ⟨pages, ?_⟩
    simp [mergeLoop, hps2, hrec, perFileEvents]

/-- C9: when every input succeeds, the merge emits, in order, one progress
event per input - whose message contains the file name at its 1-based index
and whose percent is Math.round of ((i+1)/n)*100, emitted before the input is
processed - followed by exactly one finalize event at percent 100, and then
returns the serialized document. -/
theorem C9_progress_events {env : Env} {files : List UploadedFile} {level : CompressionLevel}
    (hok : ∀ j (hj : j < files.length), ∃ ps,
      processOneFile env level (files.get ⟨j, hj⟩) = Except.ok ps) :
    ∃ pages, mergeFiles env files level =
      (perFileEvents files.length 0 (files.map (fun f => f.name)) ++
        [("正在打包生成最终文件...", 100)], Except.ok pages) := by
  rcases @mergeLoop_events env level files.length files 0 [] hok with ⟨pages, hloop⟩
  refine ⟨pages, ?_⟩
  simp [mergeFiles, hloop]

/-- Witness for C9 at a concrete two-PDF merge under envA: events at 50 and
100 percent, then the finalize event. -/
theorem C9_progress_events_witness :
    ∃ pages, mergeFiles envA [fileA, fileA2] CompressionLevel.none =
      (perFileEvents 2 0 ["a.pdf", "c.pdf"] ++ [("正在打包生成最终文件...", 100)],
       Except.ok pages) := by
  have h := @C9_progress_events envA [fileA, fileA2] CompressionLevel.none ?hok
  case hok =>
    intro j hj
    match j, hj with
    | 0, _ => exact ⟨[mkScaledPage 300 300], by simp [processOneFile, envA, fileA]⟩
    | 1, _ => exact ⟨[mkScaledPage 300 300], by simp [processOneFile, envA, fileA2]⟩
    | n + 2, hj => exact absurd hj (by simp)
  simpa [fileA, fileA2] using h

/-- C10: merging an empty input sequence succeeds: the per-input loop is
skipped (no per-input progress event, and the percent division is never
evaluated), exactly one finalize event at percent 100 is emitted, and the
serialized zero-page document is returned. -/
theorem C10_empty_merge (env : Env) (level : CompressionLevel) :
    mergeFiles env [] level = ([("正在打包生成最终文件...", 100)], Except.ok []) := by
  simp [mergeFiles, mergeLoop]

end PdfMerge
